import Mathlib

/-!
Verification development for the TV delivery optimizer (src/app.py).

The program builds a 3 depot × 3 store transportation linear program from a
fixed configuration (store capacities, distance matrix, cost per mile) and a
user-supplied vector of depot supplies, hands it to an external LP solver
(scipy.optimize.linprog, method "highs"), and renders the outcome: an
oversupply error before solving, a rounded integer shipment plan plus the
solver's objective value on success, or a generic failure message otherwise.

The external solver is not part of the repository; it is modelled by the
`LinprogResult` record it returns and, where a claim needs it, by the
contract `ConformsTo` stating what a correct LP solver guarantees about
that record.  Everything else is translated directly from src/app.py.
-/

namespace DeliverySchedule

/-- Fixed store capacities, app.py line 17: `store_caps = [2000, 3000, 2000]`. -/
def store_caps : Fin 3 → ℕ := ![2000, 3000, 2000]

/-- Fixed distance matrix in miles, app.py lines 19-23. -/
def distances : Fin 3 → Fin 3 → ℕ := ![![22, 33, 40], ![27, 30, 22], ![36, 20, 25]]

/-- Cost multiplier, app.py line 24: `cost_per_mile = 5`. -/
def cost_per_mile : ℕ := 5

/-- app.py line 37: `total_demand = sum(store_caps)`. -/
def total_demand : ℕ := ∑ j, store_caps j

/-- Depot-major flattening order used by `numpy.flatten` and `reshape(3, 3)`:
the shipment variable for depot `i` and store `j` sits at flat index `3*i + j`. -/
def flat (i j : Fin 3) : Fin 9 := ⟨3 * i.val + j.val, by have := i.2; have := j.2; omega⟩

/-- Cost vector, app.py line 127: `c = (distances * cost_per_mile).flatten()`.
Entry `k` is the cost of variable `k = 3*i + j`, i.e. `distances[i][j] * 5`. -/
def c (k : Fin 9) : ℚ :=
  ((distances ⟨k.val / 3, by have := k.2; omega⟩ ⟨k.val % 3, by have := k.2; omega⟩ *
    cost_per_mile : ℕ) : ℚ)

/-- Store (inequality) constraint matrix, app.py lines 129-132.  The loop sets
`A_store[j, 3*i + j] = 1` for every depot `i`, all other entries stay zero;
for `k < 9` the indices of the form `3*i + j` are exactly those with
`k % 3 = j`. -/
def A_store (j : Fin 3) (k : Fin 9) : ℚ := if k.val % 3 = j.val then 1 else 0

/-- Depot (equality) constraint matrix, app.py lines 135-137.  The loop sets
`A_depot[i, 3*i : 3*i+3] = 1`, all other entries stay zero; for `k < 9` the
indices in `[3*i, 3*i+3)` are exactly those with `k / 3 = i`. -/
def A_depot (i : Fin 3) (k : Fin 9) : ℚ := if k.val / 3 = i.val then 1 else 0

/-- The arrays handed to `linprog`, app.py lines 142-150. -/
structure Program where
  c : Fin 9 → ℚ
  A_ub : Fin 3 → Fin 9 → ℚ
  b_ub : Fin 3 → ℚ
  A_eq : Fin 3 → Fin 9 → ℚ
  b_eq : Fin 3 → ℚ
  bounds : Fin 9 → ℚ × Option ℚ

/-- The Model Builder, app.py lines 127-150: cost vector, store inequality
system, depot equality system, and bounds `(0, None)` on all nine variables. -/
def buildProgram (supply : Fin 3 → ℕ) : Program where
  c := DeliverySchedule.c
  A_ub := A_store
  b_ub := fun j => (store_caps j : ℚ)
  A_eq := A_depot
  b_eq := fun i => (supply i : ℚ)
  bounds := fun _ => (0, none)

/-- A point satisfies a `Program` under `linprog`'s reading of the arrays:
within every variable's bounds, `A_ub x ≤ b_ub` row-wise, `A_eq x = b_eq`
row-wise. -/
def progFeasible (p : Program) (x : Fin 9 → ℚ) : Prop :=
  (∀ k, (p.bounds k).1 ≤ x k ∧ ∀ u ∈ (p.bounds k).2, x k ≤ u) ∧
  (∀ j, (∑ k, p.A_ub j k * x k) ≤ p.b_ub j) ∧
  (∀ i, (∑ k, p.A_eq i k * x k) = p.b_eq i)

/-- The result record returned by `scipy.optimize.linprog`: the fields of it
that app.py reads (`success`, `x`, `fun` — here `objValue`, since `fun` is a
Lean keyword — and `message`) plus the `status` code that encodes the failure
kind (2 infeasible, 3 unbounded, 4 numerical error), which app.py ignores. -/
structure LinprogResult where
  success : Bool
  status : ℕ
  x : Fin 9 → ℚ
  objValue : ℚ
  message : String

/-- Modelled from the spec: the reporting part of the contract of the
external LP solver (scipy.optimize.linprog, which is not part of this
repository) on one program.  If the program is feasible the solve reports
success, and a reported success carries a feasible point whose objective
value is `c · x`.  The spec's full contract additionally requires
minimization; `ConformsToOptimal` below adds that clause, and the claims
about optimal behaviour use it. -/
def ConformsTo (p : Program) (res : LinprogResult) : Prop :=
  ((∃ x, progFeasible p x) → res.success = true) ∧
  (res.success = true → progFeasible p res.x ∧ res.objValue = ∑ k, p.c k * res.x k)

/-- Modelled from the spec: the full contract of the external LP solver.
Section 4.2 requires a generic LP solver performing "minimization of a
linear objective" with "correctness and determinism of the optimal value"
as the observable contract: on top of `ConformsTo`, the point a successful
solve carries minimizes the objective over the feasible region. -/
def ConformsToOptimal (p : Program) (res : LinprogResult) : Prop :=
  ConformsTo p res ∧
  (res.success = true → ∀ y, progFeasible p y →
    (∑ k, p.c k * res.x k) ≤ ∑ k, p.c k * y k)

/-- `np.round` on one entry: round half to even (banker's rounding). -/
def roundHalfEven (q : ℚ) : ℤ :=
  if q - (⌊q⌋ : ℚ) < 1 / 2 then ⌊q⌋
  else if 1 / 2 < q - (⌊q⌋ : ℚ) then ⌊q⌋ + 1
  else if ⌊q⌋ % 2 = 0 then ⌊q⌋ else ⌊q⌋ + 1

/-- app.py line 155: `x = np.round(res.x).astype(int).reshape(3, 3)` — each
entry rounded independently, then laid out depot-major. -/
def roundPlan (x : Fin 9 → ℚ) : Fin 3 → Fin 3 → ℤ := fun i j => roundHalfEven (x (flat i j))

/-- The outcomes the page can render for one submitted request: the
oversupply error (lines 90-96, which `st.stop`s before solving), the success
branch with plan and total cost (lines 154-165), or the generic failure
message (lines 166-167). -/
inductive Outcome where
  | oversupplyError : Outcome
  | success : (Fin 3 → Fin 3 → ℤ) → ℚ → Outcome
  | failure : String → Outcome

/-- The failure text of app.py line 167. -/
def failMsgOf (m : String) : String := "❌ Optimization failed: " ++ m

/-- app.py lines 154-167: the success branch rounds and reshapes `res.x` and
reports `res.fun`; the else branch shows the solver's message.  No other
check happens after the solve. -/
def interpret (res : LinprogResult) : Outcome :=
  if res.success then Outcome.success (roundPlan res.x) res.objValue
  else Outcome.failure (failMsgOf res.message)

/-- One submitted request, app.py lines 34-167: compare total supply against
total demand (line 90); on oversupply stop with the error, otherwise build
the program, call the solver, and interpret its result. -/
def runRequest (solver : Program → LinprogResult) (supply : Fin 3 → ℕ) : Outcome :=
  if (∑ i, supply i) > total_demand then Outcome.oversupplyError
  else interpret (solver (buildProgram supply))

/-! ### Expansion lemmas for the constraint rows -/

lemma filter_mod_eq (j : Fin 3) :
    Finset.filter (fun k : Fin 9 => k.val % 3 = j.val) Finset.univ =
      ({flat 0 j, flat 1 j, flat 2 j} : Finset (Fin 9)) := by
  fin_cases j <;> decide

lemma filter_div_eq (i : Fin 3) :
    Finset.filter (fun k : Fin 9 => k.val / 3 = i.val) Finset.univ =
      ({flat i 0, flat i 1, flat i 2} : Finset (Fin 9)) := by
  fin_cases i <;> decide

lemma flat_col_notmem1 (j : Fin 3) : flat 0 j ∉ ({flat 1 j, flat 2 j} : Finset (Fin 9)) := by
  fin_cases j <;> decide

lemma flat_col_notmem2 (j : Fin 3) : flat 1 j ∉ ({flat 2 j} : Finset (Fin 9)) := by
  fin_cases j <;> decide

lemma flat_row_notmem1 (i : Fin 3) : flat i 0 ∉ ({flat i 1, flat i 2} : Finset (Fin 9)) := by
  fin_cases i <;> decide

lemma flat_row_notmem2 (i : Fin 3) : flat i 1 ∉ ({flat i 2} : Finset (Fin 9)) := by
  fin_cases i <;> decide

lemma sum_A_store (j : Fin 3) (x : Fin 9 → ℚ) :
    (∑ k, A_store j k * x k) = ∑ i, x (flat i j) := by
  have h : ∀ k : Fin 9, A_store j k * x k = if k.val % 3 = j.val then x k else 0 := by
    intro k
    unfold A_store
    split <;> simp
  rw [Finset.sum_congr rfl fun k _ => h k, Finset.sum_ite, Finset.sum_const_zero, add_zero,
    filter_mod_eq, Finset.sum_insert (flat_col_notmem1 j), Finset.sum_insert (flat_col_notmem2 j),
    Finset.sum_singleton, Fin.sum_univ_three]
  ring

lemma sum_A_depot (i : Fin 3) (x : Fin 9 → ℚ) :
    (∑ k, A_depot i k * x k) = ∑ j, x (flat i j) := by
  have h : ∀ k : Fin 9, A_depot i k * x k = if k.val / 3 = i.val then x k else 0 := by
    intro k
    unfold A_depot
    split <;> simp
  rw [Finset.sum_congr rfl fun k _ => h k, Finset.sum_ite, Finset.sum_const_zero, add_zero,
    filter_div_eq, Finset.sum_insert (flat_row_notmem1 i), Finset.sum_insert (flat_row_notmem2 i),
    Finset.sum_singleton, Fin.sum_univ_three]
  ring

/-- Feasibility for a built program, written out row by row. -/
lemma progFeasible_build_iff (s : Fin 3 → ℕ) (x : Fin 9 → ℚ) :
    progFeasible (buildProgram s) x ↔
      (∀ k, 0 ≤ x k) ∧
      (∀ j, x (flat 0 j) + x (flat 1 j) + x (flat 2 j) ≤ (store_caps j : ℚ)) ∧
      (∀ i, x (flat i 0) + x (flat i 1) + x (flat i 2) = (s i : ℚ)) := by
  unfold progFeasible
  constructor
  · rintro ⟨hb, hub, heq⟩
    refine ⟨fun k => (hb k).1, fun j => ?_, fun i => ?_⟩
    · have := hub j
      rw [show (buildProgram s).A_ub = A_store from rfl, sum_A_store, Fin.sum_univ_three] at this
      exact this
    · have := heq i
      rw [show (buildProgram s).A_eq = A_depot from rfl, sum_A_depot, Fin.sum_univ_three] at this
      exact this
  · rintro ⟨hb, hub, heq⟩
    refine ⟨fun k => ⟨hb k, by simp [buildProgram]⟩, fun j => ?_, fun i => ?_⟩
    · rw [show (buildProgram s).A_ub = A_store from rfl, sum_A_store, Fin.sum_univ_three]
      exact hub j
    · rw [show (buildProgram s).A_eq = A_depot from rfl, sum_A_depot, Fin.sum_univ_three]
      exact heq i

/-! ### Facts about the rounding function -/

lemma roundHalfEven_dist (q : ℚ) : |(roundHalfEven q : ℚ) - q| ≤ 1 / 2 := by
  have h1 : ((⌊q⌋ : ℤ) : ℚ) ≤ q := Int.floor_le q
  have h2 : q < ((⌊q⌋ : ℤ) : ℚ) + 1 := Int.lt_floor_add_one q
  unfold roundHalfEven
  by_cases hlt : q - (⌊q⌋ : ℚ) < 1 / 2
  · rw [if_pos hlt]
    apply abs_le.mpr
    constructor <;> linarith
  · rw [if_neg hlt]
    by_cases hgt : 1 / 2 < q - (⌊q⌋ : ℚ)
    · rw [if_pos hgt]
      push_cast
      apply abs_le.mpr
      constructor <;> linarith
    · rw [if_neg hgt]
      by_cases hev : ⌊q⌋ % 2 = 0
      · rw [if_pos hev]
        apply abs_le.mpr
        constructor <;> linarith
      · rw [if_neg hev]
        push_cast
        apply abs_le.mpr
        constructor <;> linarith

lemma roundHalfEven_nearest (q : ℚ) (m : ℤ) :
    |(roundHalfEven q : ℚ) - q| ≤ |(m : ℚ) - q| := by
  rcases eq_or_ne m (roundHalfEven q) with h | h
  · rw [h]
  · have h0 : (1 : ℤ) ≤ |m - roundHalfEven q| := Int.one_le_abs (sub_ne_zero.mpr h)
    have h1 : (1 : ℚ) ≤ |(m : ℚ) - (roundHalfEven q : ℚ)| := by
      calc (1 : ℚ) = ((1 : ℤ) : ℚ) := by norm_num
      _ ≤ (|m - roundHalfEven q| : ℤ) := by exact_mod_cast h0
      _ = |(m : ℚ) - (roundHalfEven q : ℚ)| := by push_cast; rfl
    have h2 := roundHalfEven_dist q
    have h3 : |(m : ℚ) - (roundHalfEven q : ℚ)| ≤
        |(m : ℚ) - q| + |q - (roundHalfEven q : ℚ)| := abs_sub_le _ q _
    have h4 : |q - (roundHalfEven q : ℚ)| = |(roundHalfEven q : ℚ) - q| := abs_sub_comm _ _
    linarith

lemma roundHalfEven_intCast (n : ℤ) : roundHalfEven ((n : ℤ) : ℚ) = n := by
  unfold roundHalfEven
  rw [Int.floor_intCast]
  rw [if_pos (by norm_num)]

lemma roundHalfEven_cast_of_int (q : ℚ) (h : ∃ n : ℤ, q = (n : ℚ)) :
    ((roundHalfEven q : ℤ) : ℚ) = q := by
  obtain ⟨n, rfl⟩ := h
  rw [roundHalfEven_intCast]

/-- Helper for computing the rounding of a concrete rational whose fractional
part is below one half. -/
lemma roundHalfEven_eq_floor (q : ℚ) (n : ℤ) (hf : ⌊q⌋ = n) (h : q - (n : ℚ) < 1 / 2) :
    roundHalfEven q = n := by
  unfold roundHalfEven
  rw [hf, if_pos h]

/-- Helper for computing the rounding of a concrete rational whose fractional
part is above one half. -/
lemma roundHalfEven_eq_ceil (q : ℚ) (n : ℤ) (hf : ⌊q⌋ = n) (h : 1 / 2 < q - (n : ℚ)) :
    roundHalfEven q = n + 1 := by
  unfold roundHalfEven
  rw [hf, if_neg (by linarith), if_pos h]

lemma interpret_ne_oversupply (res : LinprogResult) :
    interpret res ≠ Outcome.oversupplyError := by
  unfold interpret
  split <;> simp

lemma interpret_of_success (res : LinprogResult) (h : res.success = true) :
    interpret res = Outcome.success (roundPlan res.x) res.objValue := by
  unfold interpret
  rw [if_pos h]

lemma interpret_of_failure (res : LinprogResult) (h : res.success = false) :
    interpret res = Outcome.failure (failMsgOf res.message) := by
  unfold interpret
  rw [if_neg (by rw [h]; exact Bool.false_ne_true)]

lemma total_demand_eq : total_demand = 7000 := by decide

/-! ### A feasible point for every admissible supply vector

Lay the three capacity segments `[0,2000)`, `[2000,5000)`, `[5000,7000)` end
to end on one line and let depot `i` occupy the slice
`[pref s i, pref s (i+1))`; the overlap lengths give a non-negative
assignment whose rows sum to the supplies (as long as the total fits, i.e.
total supply ≤ 7000) and whose columns never exceed the capacities. -/

/-- Cumulative supply before depot `n`. -/
def pref (s : Fin 3 → ℕ) : ℕ → ℕ
  | 0 => 0
  | 1 => s 0
  | 2 => s 0 + s 1
  | _ => s 0 + s 1 + s 2

/-- Left end of store `j`'s capacity segment. -/
def segStart : ℕ → ℕ
  | 0 => 0
  | 1 => 2000
  | _ => 5000

/-- Right end of store `j`'s capacity segment. -/
def segEnd : ℕ → ℕ
  | 0 => 2000
  | 1 => 5000
  | _ => 7000

/-- Overlap of depot `i`'s slice with store `j`'s segment. -/
def greedy (s : Fin 3 → ℕ) (i j : Fin 3) : ℕ :=
  min (pref s (i.val + 1)) (segEnd j.val) - max (pref s i.val) (segStart j.val)

/-- The greedy assignment as a flat vector in the depot-major order. -/
def greedyX (s : Fin 3 → ℕ) : Fin 9 → ℚ :=
  fun k =>
    ((greedy s ⟨k.val / 3, by have := k.2; omega⟩ ⟨k.val % 3, by have := k.2; omega⟩ : ℕ) : ℚ)

lemma greedyX_flat (s : Fin 3 → ℕ) (i j : Fin 3) :
    greedyX s (flat i j) = ((greedy s i j : ℕ) : ℚ) := by
  fin_cases i <;> fin_cases j <;> rfl

lemma greedy_row (s : Fin 3 → ℕ) (h : s 0 + s 1 + s 2 ≤ 7000) (i : Fin 3) :
    greedy s i 0 + greedy s i 1 + greedy s i 2 = s i := by
  fin_cases i
  · show min (s 0) 2000 - max 0 0 + (min (s 0) 5000 - max 0 2000) +
      (min (s 0) 7000 - max 0 5000) = s 0
    omega
  · show min (s 0 + s 1) 2000 - max (s 0) 0 + (min (s 0 + s 1) 5000 - max (s 0) 2000) +
      (min (s 0 + s 1) 7000 - max (s 0) 5000) = s 1
    omega
  · show min (s 0 + s 1 + s 2) 2000 - max (s 0 + s 1) 0 +
      (min (s 0 + s 1 + s 2) 5000 - max (s 0 + s 1) 2000) +
      (min (s 0 + s 1 + s 2) 7000 - max (s 0 + s 1) 5000) = s 2
    omega

lemma greedy_col (s : Fin 3 → ℕ) (j : Fin 3) :
    greedy s 0 j + greedy s 1 j + greedy s 2 j ≤ store_caps j := by
  fin_cases j
  · show min (s 0) 2000 - max 0 0 + (min (s 0 + s 1) 2000 - max (s 0) 0) +
      (min (s 0 + s 1 + s 2) 2000 - max (s 0 + s 1) 0) ≤ 2000
    omega
  · show min (s 0) 5000 - max 0 2000 + (min (s 0 + s 1) 5000 - max (s 0) 2000) +
      (min (s 0 + s 1 + s 2) 5000 - max (s 0 + s 1) 2000) ≤ 3000
    omega
  · show min (s 0) 7000 - max 0 5000 + (min (s 0 + s 1) 7000 - max (s 0) 5000) +
      (min (s 0 + s 1 + s 2) 7000 - max (s 0 + s 1) 5000) ≤ 2000
    omega

lemma feasible_greedy (s : Fin 3 → ℕ) (h : (∑ i, s i) ≤ total_demand) :
    progFeasible (buildProgram s) (greedyX s) := by
  have h3 : s 0 + s 1 + s 2 ≤ 7000 := by
    rw [Fin.sum_univ_three, total_demand_eq] at h
    exact h
  rw [progFeasible_build_iff]
  refine ⟨fun k => Nat.cast_nonneg _, fun j => ?_, fun i => ?_⟩
  · rw [greedyX_flat, greedyX_flat, greedyX_flat]
    exact_mod_cast greedy_col s j
  · rw [greedyX_flat, greedyX_flat, greedyX_flat]
    exact_mod_cast greedy_row s h3 i

/-! ### Concrete data used by the counterexamples and witnesses -/

/-- Supplies (2000, 2000, 2000); total 6000 ≤ 7000. -/
def badSupply : Fin 3 → ℕ := fun _ => 2000

/-- A feasible continuous point for `badSupply` with fractional entries chosen
so that every depot row sums to 2000 and every store column sums to exactly
its capacity, while rounding pushes both the first column and the last row to
2001.  Depot-major entries:
(666.7, 1333.3, 0), (666.7, 0, 1333.3), (666.6, 666.7, 666.7). -/
def badX : Fin 9 → ℚ := fun k =>
  match k.val with
  | 0 => mkRat 6667 10
  | 1 => mkRat 13333 10
  | 2 => 0
  | 3 => mkRat 6667 10
  | 4 => 0
  | 5 => mkRat 13333 10
  | 6 => mkRat 3333 5
  | 7 => mkRat 6667 10
  | _ => mkRat 6667 10

/-- A successful solver result carrying `badX`. -/
def badRes : LinprogResult :=
  ⟨true, 0, badX, ∑ k, c k * badX k, "Optimization terminated successfully."⟩

/-- The worked example of the spec: supplies (2500, 3100, 1250). -/
def exSupply : Fin 3 → ℕ := fun i =>
  match i.val with
  | 0 => 2500
  | 1 => 3100
  | _ => 1250

/-- An integral feasible point for `exSupply`:
rows (2000, 500, 0), (0, 1100, 2000), (0, 1250, 0). -/
def intX : Fin 9 → ℚ := fun k =>
  match k.val with
  | 0 => 2000
  | 1 => 500
  | 2 => 0
  | 3 => 0
  | 4 => 1100
  | 5 => 2000
  | 6 => 0
  | 7 => 1250
  | _ => 0

/-- A successful solver result carrying `intX`. -/
def okRes : LinprogResult :=
  ⟨true, 0, intX, ∑ k, c k * intX k, "Optimization terminated successfully."⟩

/-- Supplies (0, 3100, 1250): depot 1 supplies nothing. -/
def zeroSupply : Fin 3 → ℕ := fun i =>
  match i.val with
  | 0 => 0
  | 1 => 3100
  | _ => 1250

/-- An integral feasible point for `zeroSupply` with an all-zero first row:
rows (0, 0, 0), (0, 1100, 2000), (0, 1250, 0). -/
def zX : Fin 9 → ℚ := fun k =>
  match k.val with
  | 4 => 1100
  | 5 => 2000
  | 7 => 1250
  | _ => 0

/-- A successful solver result carrying `zX`. -/
def zeroRes : LinprogResult :=
  ⟨true, 0, zX, ∑ k, c k * zX k, "Optimization terminated successfully."⟩

/-- Supplies (2500, 3600, 1250); total 7350 > 7000. -/
def overSupply : Fin 3 → ℕ := fun i =>
  match i.val with
  | 0 => 2500
  | 1 => 3600
  | _ => 1250

/-- A solver stub; which result it returns never matters where it is used. -/
def constSolver : Program → LinprogResult := fun _ => okRes

/-- A failed solver result with status 2 (infeasible). -/
def failA : LinprogResult := ⟨false, 2, fun _ => 0, 0, "solver terminated early"⟩

/-- A failed solver result with status 3 (unbounded) and the same message. -/
def failB : LinprogResult := ⟨false, 3, fun _ => 0, 0, "solver terminated early"⟩

/-! ### Evaluation of the rounding on the concrete entries -/

lemma round_badA : roundHalfEven (mkRat 6667 10) = 667 := by
  have h := roundHalfEven_eq_ceil (mkRat 6667 10) 666 (by decide)
    (by simp only [Rat.mkRat_eq_div]; norm_num)
  omega

lemma round_badB : roundHalfEven (mkRat 13333 10) = 1333 :=
  roundHalfEven_eq_floor (mkRat 13333 10) 1333 (by decide)
    (by simp only [Rat.mkRat_eq_div]; norm_num)

lemma round_badC : roundHalfEven (mkRat 3333 5) = 667 := by
  have h := roundHalfEven_eq_ceil (mkRat 3333 5) 666 (by decide)
    (by simp only [Rat.mkRat_eq_div]; norm_num)
  omega

lemma round_zero : roundHalfEven 0 = 0 :=
  roundHalfEven_eq_floor 0 0 Int.floor_zero (by norm_num)

/-- Rounding the bad point: last row sums to 2001, not 2000. -/
lemma badPlan_row2 : (∑ j, roundPlan badX 2 j) = 2001 := by
  rw [Fin.sum_univ_three]
  rw [show roundPlan badX 2 0 = roundHalfEven (mkRat 3333 5) from rfl,
    show roundPlan badX 2 1 = roundHalfEven (mkRat 6667 10) from rfl,
    show roundPlan badX 2 2 = roundHalfEven (mkRat 6667 10) from rfl,
    round_badC, round_badA]
  norm_num

/-- Rounding the bad point: first column sums to 2001, one over capacity. -/
lemma badPlan_col0 : (∑ i, roundPlan badX i 0) = 2001 := by
  rw [Fin.sum_univ_three]
  rw [show roundPlan badX 0 0 = roundHalfEven (mkRat 6667 10) from rfl,
    show roundPlan badX 1 0 = roundHalfEven (mkRat 6667 10) from rfl,
    show roundPlan badX 2 0 = roundHalfEven (mkRat 3333 5) from rfl,
    round_badA, round_badC]
  norm_num

/-- The bad point is feasible for the built program. -/
lemma badX_feasible : progFeasible (buildProgram badSupply) badX := by
  rw [progFeasible_build_iff]
  refine ⟨?_, ?_, ?_⟩
  · intro k
    fin_cases k
    · show (0 : ℚ) ≤ mkRat 6667 10
      simp only [Rat.mkRat_eq_div]; norm_num
    · show (0 : ℚ) ≤ mkRat 13333 10
      simp only [Rat.mkRat_eq_div]; norm_num
    · show (0 : ℚ) ≤ 0
      norm_num
    · show (0 : ℚ) ≤ mkRat 6667 10
      simp only [Rat.mkRat_eq_div]; norm_num
    · show (0 : ℚ) ≤ 0
      norm_num
    · show (0 : ℚ) ≤ mkRat 13333 10
      simp only [Rat.mkRat_eq_div]; norm_num
    · show (0 : ℚ) ≤ mkRat 3333 5
      simp only [Rat.mkRat_eq_div]; norm_num
    · show (0 : ℚ) ≤ mkRat 6667 10
      simp only [Rat.mkRat_eq_div]; norm_num
    · show (0 : ℚ) ≤ mkRat 6667 10
      simp only [Rat.mkRat_eq_div]; norm_num
  · intro j
    fin_cases j
    · show mkRat 6667 10 + mkRat 6667 10 + mkRat 3333 5 ≤ ((2000 : ℕ) : ℚ)
      simp only [Rat.mkRat_eq_div]; norm_num
    · show mkRat 13333 10 + 0 + mkRat 6667 10 ≤ ((3000 : ℕ) : ℚ)
      simp only [Rat.mkRat_eq_div]; norm_num
    · show (0 : ℚ) + mkRat 13333 10 + mkRat 6667 10 ≤ ((2000 : ℕ) : ℚ)
      simp only [Rat.mkRat_eq_div]; norm_num
  · intro i
    fin_cases i
    · show mkRat 6667 10 + mkRat 13333 10 + 0 = ((2000 : ℕ) : ℚ)
      simp only [Rat.mkRat_eq_div]; norm_num
    · show mkRat 6667 10 + 0 + mkRat 13333 10 = ((2000 : ℕ) : ℚ)
      simp only [Rat.mkRat_eq_div]; norm_num
    · show mkRat 3333 5 + mkRat 6667 10 + mkRat 6667 10 = ((2000 : ℕ) : ℚ)
      simp only [Rat.mkRat_eq_div]; norm_num

/-- The integral point is feasible for the worked example. -/
lemma intX_feasible : progFeasible (buildProgram exSupply) intX := by
  rw [progFeasible_build_iff]
  refine ⟨?_, ?_, ?_⟩
  · intro k
    fin_cases k <;> norm_num [intX]
  · intro j
    fin_cases j
    · show (2000 : ℚ) + 0 + 0 ≤ ((2000 : ℕ) : ℚ)
      norm_num
    · show (500 : ℚ) + 1100 + 1250 ≤ ((3000 : ℕ) : ℚ)
      norm_num
    · show (0 : ℚ) + 2000 + 0 ≤ ((2000 : ℕ) : ℚ)
      norm_num
  · intro i
    fin_cases i
    · show (2000 : ℚ) + 500 + 0 = ((2500 : ℕ) : ℚ)
      norm_num
    · show (0 : ℚ) + 1100 + 2000 = ((3100 : ℕ) : ℚ)
      norm_num
    · show (0 : ℚ) + 1250 + 0 = ((1250 : ℕ) : ℚ)
      norm_num

/-- The zero-row point is feasible for the zero-supply example. -/
lemma zX_feasible : progFeasible (buildProgram zeroSupply) zX := by
  rw [progFeasible_build_iff]
  refine ⟨?_, ?_, ?_⟩
  · intro k
    fin_cases k <;> norm_num [zX]
  · intro j
    fin_cases j
    · show (0 : ℚ) + 0 + 0 ≤ ((2000 : ℕ) : ℚ)
      norm_num
    · show (0 : ℚ) + 1100 + 1250 ≤ ((3000 : ℕ) : ℚ)
      norm_num
    · show (0 : ℚ) + 2000 + 0 ≤ ((2000 : ℕ) : ℚ)
      norm_num
  · intro i
    fin_cases i
    · show (0 : ℚ) + 0 + 0 = ((0 : ℕ) : ℚ)
      norm_num
    · show (0 : ℚ) + 1100 + 2000 = ((3100 : ℕ) : ℚ)
      norm_num
    · show (0 : ℚ) + 1250 + 0 = ((1250 : ℕ) : ℚ)
      norm_num

lemma c_flat (i j : Fin 3) : c (flat i j) = ((distances i j * cost_per_mile : ℕ) : ℚ) := by
  fin_cases i <;> fin_cases j <;> rfl

lemma sum_flat (f : Fin 9 → ℚ) : (∑ k, f k) = ∑ i, ∑ j, f (flat i j) := by
  rw [show (Finset.univ : Finset (Fin 9)) = {0, 1, 2, 3, 4, 5, 6, 7, 8} from by decide]
  rw [Finset.sum_insert (by decide), Finset.sum_insert (by decide), Finset.sum_insert (by decide),
    Finset.sum_insert (by decide), Finset.sum_insert (by decide), Finset.sum_insert (by decide),
    Finset.sum_insert (by decide), Finset.sum_insert (by decide), Finset.sum_singleton]
  simp only [Fin.sum_univ_three]
  rw [show flat 0 0 = (0 : Fin 9) from rfl, show flat 0 1 = (1 : Fin 9) from rfl,
    show flat 0 2 = (2 : Fin 9) from rfl, show flat 1 0 = (3 : Fin 9) from rfl,
    show flat 1 1 = (4 : Fin 9) from rfl, show flat 1 2 = (5 : Fin 9) from rfl,
    show flat 2 0 = (6 : Fin 9) from rfl, show flat 2 1 = (7 : Fin 9) from rfl,
    show flat 2 2 = (8 : Fin 9) from rfl]
  ring

/-! ### The objective, written out entry by entry

The analysis of the optimum works with the nine matrix entries
`x (flat i j)` and with the objective as an explicit linear expression with
numeric coefficients. -/

/-- The objective value of a point, `c · x`. -/
def cost (x : Fin 9 → ℚ) : ℚ := ∑ k, c k * x k

lemma cost_expand (x : Fin 9 → ℚ) :
    cost x = 110 * x (flat 0 0) + 165 * x (flat 0 1) + 200 * x (flat 0 2) +
      135 * x (flat 1 0) + 150 * x (flat 1 1) + 110 * x (flat 1 2) +
      180 * x (flat 2 0) + 100 * x (flat 2 1) + 125 * x (flat 2 2) := by
  unfold cost
  rw [sum_flat fun k => c k * x k]
  simp only [Fin.sum_univ_three, c_flat]
  norm_num [show distances 0 0 * cost_per_mile = 110 from rfl,
    show distances 0 1 * cost_per_mile = 165 from rfl,
    show distances 0 2 * cost_per_mile = 200 from rfl,
    show distances 1 0 * cost_per_mile = 135 from rfl,
    show distances 1 1 * cost_per_mile = 150 from rfl,
    show distances 1 2 * cost_per_mile = 110 from rfl,
    show distances 2 0 * cost_per_mile = 180 from rfl,
    show distances 2 1 * cost_per_mile = 100 from rfl,
    show distances 2 2 * cost_per_mile = 125 from rfl]
  ring

lemma cap0 : ((store_caps 0 : ℕ) : ℚ) = 2000 := by
  norm_num [show store_caps 0 = 2000 from rfl]

lemma cap1 : ((store_caps 1 : ℕ) : ℚ) = 3000 := by
  norm_num [show store_caps 1 = 3000 from rfl]

lemma cap2 : ((store_caps 2 : ℕ) : ℚ) = 2000 := by
  norm_num [show store_caps 2 = 2000 from rfl]

/-- Feasibility for a built program, fully written out: nine non-negative
entries, three column bounds with numeric capacities, three row equations. -/
lemma feas_expand (s : Fin 3 → ℕ) (x : Fin 9 → ℚ) (h : progFeasible (buildProgram s) x) :
    (0 ≤ x (flat 0 0) ∧ 0 ≤ x (flat 0 1) ∧ 0 ≤ x (flat 0 2) ∧
      0 ≤ x (flat 1 0) ∧ 0 ≤ x (flat 1 1) ∧ 0 ≤ x (flat 1 2) ∧
      0 ≤ x (flat 2 0) ∧ 0 ≤ x (flat 2 1) ∧ 0 ≤ x (flat 2 2)) ∧
    (x (flat 0 0) + x (flat 1 0) + x (flat 2 0) ≤ 2000 ∧
      x (flat 0 1) + x (flat 1 1) + x (flat 2 1) ≤ 3000 ∧
      x (flat 0 2) + x (flat 1 2) + x (flat 2 2) ≤ 2000) ∧
    (x (flat 0 0) + x (flat 0 1) + x (flat 0 2) = (s 0 : ℚ) ∧
      x (flat 1 0) + x (flat 1 1) + x (flat 1 2) = (s 1 : ℚ) ∧
      x (flat 2 0) + x (flat 2 1) + x (flat 2 2) = (s 2 : ℚ)) := by
  rw [progFeasible_build_iff] at h
  obtain ⟨hn, hc, hr⟩ := h
  refine ⟨⟨hn _, hn _, hn _, hn _, hn _, hn _, hn _, hn _, hn _⟩, ⟨?_, ?_, ?_⟩,
    ⟨hr 0, hr 1, hr 2⟩⟩
  · have h0 := hc 0
    rw [cap0] at h0
    exact h0
  · have h1 := hc 1
    rw [cap1] at h1
    exact h1
  · have h2 := hc 2
    rw [cap2] at h2
    exact h2

/-- Builds the flat vector of an explicit 3×3 matrix of rationals, in the
depot-major order. -/
def mat9 (a00 a01 a02 a10 a11 a12 a20 a21 a22 : ℚ) : Fin 9 → ℚ := fun k =>
  match k.val with
  | 0 => a00
  | 1 => a01
  | 2 => a02
  | 3 => a10
  | 4 => a11
  | 5 => a12
  | 6 => a20
  | 7 => a21
  | _ => a22

lemma cost_mat9 (a00 a01 a02 a10 a11 a12 a20 a21 a22 : ℚ) :
    cost (mat9 a00 a01 a02 a10 a11 a12 a20 a21 a22) =
      110 * a00 + 165 * a01 + 200 * a02 + 135 * a10 + 150 * a11 + 110 * a12 +
      180 * a20 + 100 * a21 + 125 * a22 := by
  rw [cost_expand]
  rfl

lemma mat9_feasible (s : Fin 3 → ℕ) (a00 a01 a02 a10 a11 a12 a20 a21 a22 : ℚ)
    (h00 : 0 ≤ a00) (h01 : 0 ≤ a01) (h02 : 0 ≤ a02)
    (h10 : 0 ≤ a10) (h11 : 0 ≤ a11) (h12 : 0 ≤ a12)
    (h20 : 0 ≤ a20) (h21 : 0 ≤ a21) (h22 : 0 ≤ a22)
    (hc0 : a00 + a10 + a20 ≤ 2000) (hc1 : a01 + a11 + a21 ≤ 3000)
    (hc2 : a02 + a12 + a22 ≤ 2000)
    (hr0 : a00 + a01 + a02 = (s 0 : ℚ)) (hr1 : a10 + a11 + a12 = (s 1 : ℚ))
    (hr2 : a20 + a21 + a22 = (s 2 : ℚ)) :
    progFeasible (buildProgram s) (mat9 a00 a01 a02 a10 a11 a12 a20 a21 a22) := by
  rw [progFeasible_build_iff]
  refine ⟨fun k => ?_, fun j => ?_, fun i => ?_⟩
  · fin_cases k
    · exact h00
    · exact h01
    · exact h02
    · exact h10
    · exact h11
    · exact h12
    · exact h20
    · exact h21
    · exact h22
  · fin_cases j
    · show a00 + a10 + a20 ≤ ((store_caps 0 : ℕ) : ℚ)
      rw [cap0]
      exact hc0
    · show a01 + a11 + a21 ≤ ((store_caps 1 : ℕ) : ℚ)
      rw [cap1]
      exact hc1
    · show a02 + a12 + a22 ≤ ((store_caps 2 : ℕ) : ℚ)
      rw [cap2]
      exact hc2
  · fin_cases i
    · exact hr0
    · exact hr1
    · exact hr2

/-! ### The optimum is integral: region-by-region dual certificates

For each polyhedral region of supply vectors an explicit assignment and an
explicit dual price vector pin down every optimal solution: weak duality
forces complementary slackness, whose tight cells form a forest, so the
row and column equations solve uniquely to integral values. -/

/-- No depot overflows its favourite store: the diagonal placement
(D0→S0, D1→S2, D2→S1) with dual prices u = (110, 110, 100), v = 0. -/
lemma region0 (s : Fin 3 → ℕ) (x : Fin 9 → ℚ)
    (ha : s 0 ≤ 2000) (hb : s 1 ≤ 2000) (hc : s 2 ≤ 3000)
    (hfeas : progFeasible (buildProgram s) x)
    (hopt : ∀ y, progFeasible (buildProgram s) y → cost x ≤ cost y) :
    ∀ k, ∃ n : ℤ, x k = (n : ℚ) := by
  have ca : (s 0 : ℚ) ≤ 2000 := by exact_mod_cast ha
  have cb : (s 1 : ℚ) ≤ 2000 := by exact_mod_cast hb
  have cc : (s 2 : ℚ) ≤ 3000 := by exact_mod_cast hc
  have ca0 : (0 : ℚ) ≤ (s 0 : ℚ) := Nat.cast_nonneg _
  have cb0 : (0 : ℚ) ≤ (s 1 : ℚ) := Nat.cast_nonneg _
  have cc0 : (0 : ℚ) ≤ (s 2 : ℚ) := Nat.cast_nonneg _
  have hy : progFeasible (buildProgram s) (mat9 (s 0 : ℚ) 0 0 0 0 (s 1 : ℚ) 0 (s 2 : ℚ) 0) :=
    mat9_feasible s _ _ _ _ _ _ _ _ _ ca0 le_rfl le_rfl le_rfl le_rfl cb0 le_rfl cc0 le_rfl
      (by linarith) (by linarith) (by linarith) (by ring) (by ring) (by ring)
  have hb2 := hopt _ hy
  rw [cost_expand, cost_mat9] at hb2
  obtain ⟨⟨n00, n01, n02, n10, n11, n12, n20, n21, n22⟩, ⟨hc0, hc1, hc2⟩, ⟨hr0, hr1, hr2⟩⟩ :=
    feas_expand s x hfeas
  have e01 : x (flat 0 1) = 0 := by linarith
  have e02 : x (flat 0 2) = 0 := by linarith
  have e10 : x (flat 1 0) = 0 := by linarith
  have e11 : x (flat 1 1) = 0 := by linarith
  have e20 : x (flat 2 0) = 0 := by linarith
  have e22 : x (flat 2 2) = 0 := by linarith
  have e00 : x (flat 0 0) = (s 0 : ℚ) := by linarith
  have e12 : x (flat 1 2) = (s 1 : ℚ) := by linarith
  have e21 : x (flat 2 1) = (s 2 : ℚ) := by linarith
  intro k
  fin_cases k
  · exact ⟨(s 0 : ℤ), by show x (flat 0 0) = _; rw [e00]; push_cast; ring⟩
  · exact ⟨0, by show x (flat 0 1) = _; rw [e01]; norm_num⟩
  · exact ⟨0, by show x (flat 0 2) = _; rw [e02]; norm_num⟩
  · exact ⟨0, by show x (flat 1 0) = _; rw [e10]; norm_num⟩
  · exact ⟨0, by show x (flat 1 1) = _; rw [e11]; norm_num⟩
  · exact ⟨(s 1 : ℤ), by show x (flat 1 2) = _; rw [e12]; push_cast; ring⟩
  · exact ⟨0, by show x (flat 2 0) = _; rw [e20]; norm_num⟩
  · exact ⟨(s 2 : ℤ), by show x (flat 2 1) = _; rw [e21]; push_cast; ring⟩
  · exact ⟨0, by show x (flat 2 2) = _; rw [e22]; norm_num⟩

/-- D0 overflows into S1 and everything fits: dual u = (165, 110, 100),
v = (-55, 0, 0). -/
lemma region2 (s : Fin 3 → ℕ) (x : Fin 9 → ℚ)
    (ha : 2000 ≤ s 0) (hb : s 1 ≤ 2000) (hac : s 0 + s 2 ≤ 5000)
    (hfeas : progFeasible (buildProgram s) x)
    (hopt : ∀ y, progFeasible (buildProgram s) y → cost x ≤ cost y) :
    ∀ k, ∃ n : ℤ, x k = (n : ℚ) := by
  have ca : (2000 : ℚ) ≤ (s 0 : ℚ) := by exact_mod_cast ha
  have cb : (s 1 : ℚ) ≤ 2000 := by exact_mod_cast hb
  have cac : (s 0 : ℚ) + (s 2 : ℚ) ≤ 5000 := by exact_mod_cast hac
  have cb0 : (0 : ℚ) ≤ (s 1 : ℚ) := Nat.cast_nonneg _
  have cc0 : (0 : ℚ) ≤ (s 2 : ℚ) := Nat.cast_nonneg _
  have hy : progFeasible (buildProgram s)
      (mat9 2000 ((s 0 : ℚ) - 2000) 0 0 0 (s 1 : ℚ) 0 (s 2 : ℚ) 0) :=
    mat9_feasible s _ _ _ _ _ _ _ _ _ (by norm_num) (by linarith) le_rfl le_rfl le_rfl cb0
      le_rfl cc0 le_rfl (by norm_num) (by linarith) (by linarith) (by ring) (by ring) (by ring)
  have hb2 := hopt _ hy
  rw [cost_expand, cost_mat9] at hb2
  obtain ⟨⟨n00, n01, n02, n10, n11, n12, n20, n21, n22⟩, ⟨hc0, hc1, hc2⟩, ⟨hr0, hr1, hr2⟩⟩ :=
    feas_expand s x hfeas
  have e02 : x (flat 0 2) = 0 := by linarith
  have e10 : x (flat 1 0) = 0 := by linarith
  have e11 : x (flat 1 1) = 0 := by linarith
  have e20 : x (flat 2 0) = 0 := by linarith
  have e22 : x (flat 2 2) = 0 := by linarith
  have e00 : x (flat 0 0) = 2000 := by linarith
  have e01 : x (flat 0 1) = (s 0 : ℚ) - 2000 := by linarith
  have e12 : x (flat 1 2) = (s 1 : ℚ) := by linarith
  have e21 : x (flat 2 1) = (s 2 : ℚ) := by linarith
  intro k
  fin_cases k
  · exact ⟨2000, by show x (flat 0 0) = _; rw [e00]; norm_num⟩
  · exact ⟨(s 0 : ℤ) - 2000, by show x (flat 0 1) = _; rw [e01]; push_cast; ring⟩
  · exact ⟨0, by show x (flat 0 2) = _; rw [e02]; norm_num⟩
  · exact ⟨0, by show x (flat 1 0) = _; rw [e10]; norm_num⟩
  · exact ⟨0, by show x (flat 1 1) = _; rw [e11]; norm_num⟩
  · exact ⟨(s 1 : ℤ), by show x (flat 1 2) = _; rw [e12]; push_cast; ring⟩
  · exact ⟨0, by show x (flat 2 0) = _; rw [e20]; norm_num⟩
  · exact ⟨(s 2 : ℤ), by show x (flat 2 1) = _; rw [e21]; push_cast; ring⟩
  · exact ⟨0, by show x (flat 2 2) = _; rw [e22]; norm_num⟩

/-- D0 overflows past what S1 can take next to D2, pushing part of D2 into
S2: dual u = (190, 110, 125), v = (-80, -25, 0). -/
lemma region3 (s : Fin 3 → ℕ) (x : Fin 9 → ℚ)
    (ha : 2000 ≤ s 0) (ha5 : s 0 ≤ 5000) (hb : s 1 ≤ 2000) (hac : 5000 ≤ s 0 + s 2)
    (htot : s 0 + s 1 + s 2 ≤ 7000)
    (hfeas : progFeasible (buildProgram s) x)
    (hopt : ∀ y, progFeasible (buildProgram s) y → cost x ≤ cost y) :
    ∀ k, ∃ n : ℤ, x k = (n : ℚ) := by
  have ca : (2000 : ℚ) ≤ (s 0 : ℚ) := by exact_mod_cast ha
  have ca5 : (s 0 : ℚ) ≤ 5000 := by exact_mod_cast ha5
  have cb : (s 1 : ℚ) ≤ 2000 := by exact_mod_cast hb
  have cac : (5000 : ℚ) ≤ (s 0 : ℚ) + (s 2 : ℚ) := by exact_mod_cast hac
  have ct : (s 0 : ℚ) + (s 1 : ℚ) + (s 2 : ℚ) ≤ 7000 := by exact_mod_cast htot
  have cb0 : (0 : ℚ) ≤ (s 1 : ℚ) := Nat.cast_nonneg _
  have hy : progFeasible (buildProgram s)
      (mat9 2000 ((s 0 : ℚ) - 2000) 0 0 0 (s 1 : ℚ) 0 (5000 - (s 0 : ℚ))
        ((s 0 : ℚ) + (s 2 : ℚ) - 5000)) :=
    mat9_feasible s _ _ _ _ _ _ _ _ _ (by norm_num) (by linarith) le_rfl le_rfl le_rfl cb0
      le_rfl (by linarith) (by linarith) (by norm_num) (by linarith) (by linarith) (by ring)
      (by ring) (by ring)
  have hb2 := hopt _ hy
  rw [cost_expand, cost_mat9] at hb2
  obtain ⟨⟨n00, n01, n02, n10, n11, n12, n20, n21, n22⟩, ⟨hc0, hc1, hc2⟩, ⟨hr0, hr1, hr2⟩⟩ :=
    feas_expand s x hfeas
  have e02 : x (flat 0 2) = 0 := by linarith
  have e10 : x (flat 1 0) = 0 := by linarith
  have e11 : x (flat 1 1) = 0 := by linarith
  have e20 : x (flat 2 0) = 0 := by linarith
  have e00 : x (flat 0 0) = 2000 := by linarith
  have e01 : x (flat 0 1) = (s 0 : ℚ) - 2000 := by linarith
  have e21 : x (flat 2 1) = 5000 - (s 0 : ℚ) := by linarith
  have e22 : x (flat 2 2) = (s 0 : ℚ) + (s 2 : ℚ) - 5000 := by linarith
  have e12 : x (flat 1 2) = (s 1 : ℚ) := by linarith
  intro k
  fin_cases k
  · exact ⟨2000, by show x (flat 0 0) = _; rw [e00]; norm_num⟩
  · exact ⟨(s 0 : ℤ) - 2000, by show x (flat 0 1) = _; rw [e01]; push_cast; ring⟩
  · exact ⟨0, by show x (flat 0 2) = _; rw [e02]; norm_num⟩
  · exact ⟨0, by show x (flat 1 0) = _; rw [e10]; norm_num⟩
  · exact ⟨0, by show x (flat 1 1) = _; rw [e11]; norm_num⟩
  · exact ⟨(s 1 : ℤ), by show x (flat 1 2) = _; rw [e12]; push_cast; ring⟩
  · exact ⟨0, by show x (flat 2 0) = _; rw [e20]; norm_num⟩
  · exact ⟨5000 - (s 0 : ℤ), by show x (flat 2 1) = _; rw [e21]; push_cast; ring⟩
  · exact ⟨(s 0 : ℤ) + (s 2 : ℤ) - 5000, by show x (flat 2 2) = _; rw [e22]; push_cast; ring⟩

/-- D0 fills both S0 and S1 on its own and spills into S2; everybody else
shares what is left of S2: dual u = (200, 110, 125), v = (-90, -35, 0). -/
lemma region4 (s : Fin 3 → ℕ) (x : Fin 9 → ℚ)
    (ha5 : 5000 ≤ s 0) (htot : s 0 + s 1 + s 2 ≤ 7000)
    (hfeas : progFeasible (buildProgram s) x)
    (hopt : ∀ y, progFeasible (buildProgram s) y → cost x ≤ cost y) :
    ∀ k, ∃ n : ℤ, x k = (n : ℚ) := by
  have ca5 : (5000 : ℚ) ≤ (s 0 : ℚ) := by exact_mod_cast ha5
  have ct : (s 0 : ℚ) + (s 1 : ℚ) + (s 2 : ℚ) ≤ 7000 := by exact_mod_cast htot
  have cb0 : (0 : ℚ) ≤ (s 1 : ℚ) := Nat.cast_nonneg _
  have cc0 : (0 : ℚ) ≤ (s 2 : ℚ) := Nat.cast_nonneg _
  have hy : progFeasible (buildProgram s)
      (mat9 2000 3000 ((s 0 : ℚ) - 5000) 0 0 (s 1 : ℚ) 0 0 (s 2 : ℚ)) :=
    mat9_feasible s _ _ _ _ _ _ _ _ _ (by norm_num) (by norm_num) (by linarith) le_rfl le_rfl
      cb0 le_rfl le_rfl cc0 (by norm_num) (by norm_num) (by linarith) (by ring) (by ring)
      (by ring)
  have hb2 := hopt _ hy
  rw [cost_expand, cost_mat9] at hb2
  obtain ⟨⟨n00, n01, n02, n10, n11, n12, n20, n21, n22⟩, ⟨hc0, hc1, hc2⟩, ⟨hr0, hr1, hr2⟩⟩ :=
    feas_expand s x hfeas
  have e10 : x (flat 1 0) = 0 := by linarith
  have e11 : x (flat 1 1) = 0 := by linarith
  have e20 : x (flat 2 0) = 0 := by linarith
  have e21 : x (flat 2 1) = 0 := by linarith
  have e00 : x (flat 0 0) = 2000 := by linarith
  have e01 : x (flat 0 1) = 3000 := by linarith
  have e02 : x (flat 0 2) = (s 0 : ℚ) - 5000 := by linarith
  have e12 : x (flat 1 2) = (s 1 : ℚ) := by linarith
  have e22 : x (flat 2 2) = (s 2 : ℚ) := by linarith
  intro k
  fin_cases k
  · exact ⟨2000, by show x (flat 0 0) = _; rw [e00]; norm_num⟩
  · exact ⟨3000, by show x (flat 0 1) = _; rw [e01]; norm_num⟩
  · exact ⟨(s 0 : ℤ) - 5000, by show x (flat 0 2) = _; rw [e02]; push_cast; ring⟩
  · exact ⟨0, by show x (flat 1 0) = _; rw [e10]; norm_num⟩
  · exact ⟨0, by show x (flat 1 1) = _; rw [e11]; norm_num⟩
  · exact ⟨(s 1 : ℤ), by show x (flat 1 2) = _; rw [e12]; push_cast; ring⟩
  · exact ⟨0, by show x (flat 2 0) = _; rw [e20]; norm_num⟩
  · exact ⟨0, by show x (flat 2 1) = _; rw [e21]; norm_num⟩
  · exact ⟨(s 2 : ℤ), by show x (flat 2 2) = _; rw [e22]; push_cast; ring⟩

/-- D1 overflows into S0 and everything fits: dual u = (110, 135, 100),
v = (0, 0, -25). -/
lemma region5 (s : Fin 3 → ℕ) (x : Fin 9 → ℚ)
    (hb : 2000 ≤ s 1) (hab : s 0 + s 1 ≤ 4000) (hc : s 2 ≤ 3000)
    (hfeas : progFeasible (buildProgram s) x)
    (hopt : ∀ y, progFeasible (buildProgram s) y → cost x ≤ cost y) :
    ∀ k, ∃ n : ℤ, x k = (n : ℚ) := by
  have cb : (2000 : ℚ) ≤ (s 1 : ℚ) := by exact_mod_cast hb
  have cab : (s 0 : ℚ) + (s 1 : ℚ) ≤ 4000 := by exact_mod_cast hab
  have cc : (s 2 : ℚ) ≤ 3000 := by exact_mod_cast hc
  have ca0 : (0 : ℚ) ≤ (s 0 : ℚ) := Nat.cast_nonneg _
  have cc0 : (0 : ℚ) ≤ (s 2 : ℚ) := Nat.cast_nonneg _
  have hy : progFeasible (buildProgram s)
      (mat9 (s 0 : ℚ) 0 0 ((s 1 : ℚ) - 2000) 0 2000 0 (s 2 : ℚ) 0) :=
    mat9_feasible s _ _ _ _ _ _ _ _ _ ca0 le_rfl le_rfl (by linarith) le_rfl (by norm_num)
      le_rfl cc0 le_rfl (by linarith) (by linarith) (by norm_num) (by ring) (by ring) (by ring)
  have hb2 := hopt _ hy
  rw [cost_expand, cost_mat9] at hb2
  obtain ⟨⟨n00, n01, n02, n10, n11, n12, n20, n21, n22⟩, ⟨hc0, hc1, hc2⟩, ⟨hr0, hr1, hr2⟩⟩ :=
    feas_expand s x hfeas
  have e01 : x (flat 0 1) = 0 := by linarith
  have e02 : x (flat 0 2) = 0 := by linarith
  have e11 : x (flat 1 1) = 0 := by linarith
  have e20 : x (flat 2 0) = 0 := by linarith
  have e22 : x (flat 2 2) = 0 := by linarith
  have e12 : x (flat 1 2) = 2000 := by linarith
  have e10 : x (flat 1 0) = (s 1 : ℚ) - 2000 := by linarith
  have e00 : x (flat 0 0) = (s 0 : ℚ) := by linarith
  have e21 : x (flat 2 1) = (s 2 : ℚ) := by linarith
  intro k
  fin_cases k
  · exact ⟨(s 0 : ℤ), by show x (flat 0 0) = _; rw [e00]; push_cast; ring⟩
  · exact ⟨0, by show x (flat 0 1) = _; rw [e01]; norm_num⟩
  · exact ⟨0, by show x (flat 0 2) = _; rw [e02]; norm_num⟩
  · exact ⟨(s 1 : ℤ) - 2000, by show x (flat 1 0) = _; rw [e10]; push_cast; ring⟩
  · exact ⟨0, by show x (flat 1 1) = _; rw [e11]; norm_num⟩
  · exact ⟨2000, by show x (flat 1 2) = _; rw [e12]; norm_num⟩
  · exact ⟨0, by show x (flat 2 0) = _; rw [e20]; norm_num⟩
  · exact ⟨(s 2 : ℤ), by show x (flat 2 1) = _; rw [e21]; push_cast; ring⟩
  · exact ⟨0, by show x (flat 2 2) = _; rw [e22]; norm_num⟩

/-- D1 overflows past what S0 can take next to D0 and its tail pays for S1:
dual u = (125, 150, 100), v = (-15, 0, -40). -/
lemma region6 (s : Fin 3 → ℕ) (x : Fin 9 → ℚ)
    (hb : 2000 ≤ s 1) (hab : 4000 ≤ s 0 + s 1) (ha : s 0 ≤ 2000) (hc : s 2 ≤ 3000)
    (htot : s 0 + s 1 + s 2 ≤ 7000)
    (hfeas : progFeasible (buildProgram s) x)
    (hopt : ∀ y, progFeasible (buildProgram s) y → cost x ≤ cost y) :
    ∀ k, ∃ n : ℤ, x k = (n : ℚ) := by
  have cb : (2000 : ℚ) ≤ (s 1 : ℚ) := by exact_mod_cast hb
  have cab : (4000 : ℚ) ≤ (s 0 : ℚ) + (s 1 : ℚ) := by exact_mod_cast hab
  have ca : (s 0 : ℚ) ≤ 2000 := by exact_mod_cast ha
  have cc : (s 2 : ℚ) ≤ 3000 := by exact_mod_cast hc
  have ct : (s 0 : ℚ) + (s 1 : ℚ) + (s 2 : ℚ) ≤ 7000 := by exact_mod_cast htot
  have ca0 : (0 : ℚ) ≤ (s 0 : ℚ) := Nat.cast_nonneg _
  have cc0 : (0 : ℚ) ≤ (s 2 : ℚ) := Nat.cast_nonneg _
  have hy : progFeasible (buildProgram s)
      (mat9 (s 0 : ℚ) 0 0 (2000 - (s 0 : ℚ)) ((s 0 : ℚ) + (s 1 : ℚ) - 4000) 2000 0
        (s 2 : ℚ) 0) :=
    mat9_feasible s _ _ _ _ _ _ _ _ _ ca0 le_rfl le_rfl (by linarith) (by linarith)
      (by norm_num) le_rfl cc0 le_rfl (by linarith) (by linarith) (by norm_num) (by ring)
      (by ring) (by ring)
  have hb2 := hopt _ hy
  rw [cost_expand, cost_mat9] at hb2
  obtain ⟨⟨n00, n01, n02, n10, n11, n12, n20, n21, n22⟩, ⟨hc0, hc1, hc2⟩, ⟨hr0, hr1, hr2⟩⟩ :=
    feas_expand s x hfeas
  have e01 : x (flat 0 1) = 0 := by linarith
  have e02 : x (flat 0 2) = 0 := by linarith
  have e20 : x (flat 2 0) = 0 := by linarith
  have e22 : x (flat 2 2) = 0 := by linarith
  have e00 : x (flat 0 0) = (s 0 : ℚ) := by linarith
  have e10 : x (flat 1 0) = 2000 - (s 0 : ℚ) := by linarith
  have e12 : x (flat 1 2) = 2000 := by linarith
  have e11 : x (flat 1 1) = (s 0 : ℚ) + (s 1 : ℚ) - 4000 := by linarith
  have e21 : x (flat 2 1) = (s 2 : ℚ) := by linarith
  intro k
  fin_cases k
  · exact ⟨(s 0 : ℤ), by show x (flat 0 0) = _; rw [e00]; push_cast; ring⟩
  · exact ⟨0, by show x (flat 0 1) = _; rw [e01]; norm_num⟩
  · exact ⟨0, by show x (flat 0 2) = _; rw [e02]; norm_num⟩
  · exact ⟨2000 - (s 0 : ℤ), by show x (flat 1 0) = _; rw [e10]; push_cast; ring⟩
  · exact ⟨(s 0 : ℤ) + (s 1 : ℤ) - 4000, by show x (flat 1 1) = _; rw [e11]; push_cast; ring⟩
  · exact ⟨2000, by show x (flat 1 2) = _; rw [e12]; norm_num⟩
  · exact ⟨0, by show x (flat 2 0) = _; rw [e20]; norm_num⟩
  · exact ⟨(s 2 : ℤ), by show x (flat 2 1) = _; rw [e21]; push_cast; ring⟩
  · exact ⟨0, by show x (flat 2 2) = _; rw [e22]; norm_num⟩

/-- D2 overflows into S2 and everything fits: dual u = (110, 110, 125),
v = (0, -25, 0). -/
lemma region7 (s : Fin 3 → ℕ) (x : Fin 9 → ℚ)
    (hcc : 3000 ≤ s 2) (hbc : s 1 + s 2 ≤ 5000) (ha : s 0 ≤ 2000)
    (hfeas : progFeasible (buildProgram s) x)
    (hopt : ∀ y, progFeasible (buildProgram s) y → cost x ≤ cost y) :
    ∀ k, ∃ n : ℤ, x k = (n : ℚ) := by
  have cc : (3000 : ℚ) ≤ (s 2 : ℚ) := by exact_mod_cast hcc
  have cbc : (s 1 : ℚ) + (s 2 : ℚ) ≤ 5000 := by exact_mod_cast hbc
  have ca : (s 0 : ℚ) ≤ 2000 := by exact_mod_cast ha
  have ca0 : (0 : ℚ) ≤ (s 0 : ℚ) := Nat.cast_nonneg _
  have cb0 : (0 : ℚ) ≤ (s 1 : ℚ) := Nat.cast_nonneg _
  have hy : progFeasible (buildProgram s)
      (mat9 (s 0 : ℚ) 0 0 0 0 (s 1 : ℚ) 0 3000 ((s 2 : ℚ) - 3000)) :=
    mat9_feasible s _ _ _ _ _ _ _ _ _ ca0 le_rfl le_rfl le_rfl le_rfl cb0 le_rfl
      (by norm_num) (by linarith) (by linarith) (by norm_num) (by linarith) (by ring)
      (by ring) (by ring)
  have hb2 := hopt _ hy
  rw [cost_expand, cost_mat9] at hb2
  obtain ⟨⟨n00, n01, n02, n10, n11, n12, n20, n21, n22⟩, ⟨hc0, hc1, hc2⟩, ⟨hr0, hr1, hr2⟩⟩ :=
    feas_expand s x hfeas
  have e01 : x (flat 0 1) = 0 := by linarith
  have e02 : x (flat 0 2) = 0 := by linarith
  have e10 : x (flat 1 0) = 0 := by linarith
  have e11 : x (flat 1 1) = 0 := by linarith
  have e20 : x (flat 2 0) = 0 := by linarith
  have e21 : x (flat 2 1) = 3000 := by linarith
  have e22 : x (flat 2 2) = (s 2 : ℚ) - 3000 := by linarith
  have e00 : x (flat 0 0) = (s 0 : ℚ) := by linarith
  have e12 : x (flat 1 2) = (s 1 : ℚ) := by linarith
  intro k
  fin_cases k
  · exact ⟨(s 0 : ℤ), by show x (flat 0 0) = _; rw [e00]; push_cast; ring⟩
  · exact ⟨0, by show x (flat 0 1) = _; rw [e01]; norm_num⟩
  · exact ⟨0, by show x (flat 0 2) = _; rw [e02]; norm_num⟩
  · exact ⟨0, by show x (flat 1 0) = _; rw [e10]; norm_num⟩
  · exact ⟨0, by show x (flat 1 1) = _; rw [e11]; norm_num⟩
  · exact ⟨(s 1 : ℤ), by show x (flat 1 2) = _; rw [e12]; push_cast; ring⟩
  · exact ⟨0, by show x (flat 2 0) = _; rw [e20]; norm_num⟩
  · exact ⟨3000, by show x (flat 2 1) = _; rw [e21]; norm_num⟩
  · exact ⟨(s 2 : ℤ) - 3000, by show x (flat 2 2) = _; rw [e22]; push_cast; ring⟩

/-- D2's overflow fills S2 and pushes part of D1 into S0: dual
u = (110, 135, 150), v = (0, -50, -25). -/
lemma region8 (s : Fin 3 → ℕ) (x : Fin 9 → ℚ)
    (hcc : 3000 ≤ s 2) (hbc : 5000 ≤ s 1 + s 2) (hc5 : s 2 ≤ 5000) (ha : s 0 ≤ 2000)
    (htot : s 0 + s 1 + s 2 ≤ 7000)
    (hfeas : progFeasible (buildProgram s) x)
    (hopt : ∀ y, progFeasible (buildProgram s) y → cost x ≤ cost y) :
    ∀ k, ∃ n : ℤ, x k = (n : ℚ) := by
  have cc : (3000 : ℚ) ≤ (s 2 : ℚ) := by exact_mod_cast hcc
  have cbc : (5000 : ℚ) ≤ (s 1 : ℚ) + (s 2 : ℚ) := by exact_mod_cast hbc
  have cc5 : (s 2 : ℚ) ≤ 5000 := by exact_mod_cast hc5
  have ca : (s 0 : ℚ) ≤ 2000 := by exact_mod_cast ha
  have ct : (s 0 : ℚ) + (s 1 : ℚ) + (s 2 : ℚ) ≤ 7000 := by exact_mod_cast htot
  have ca0 : (0 : ℚ) ≤ (s 0 : ℚ) := Nat.cast_nonneg _
  have hy : progFeasible (buildProgram s)
      (mat9 (s 0 : ℚ) 0 0 ((s 1 : ℚ) + (s 2 : ℚ) - 5000) 0 (5000 - (s 2 : ℚ)) 0 3000
        ((s 2 : ℚ) - 3000)) :=
    mat9_feasible s _ _ _ _ _ _ _ _ _ ca0 le_rfl le_rfl (by linarith) le_rfl (by linarith)
      le_rfl (by norm_num) (by linarith) (by linarith) (by norm_num) (by linarith) (by ring)
      (by ring) (by ring)
  have hb2 := hopt _ hy
  rw [cost_expand, cost_mat9] at hb2
  obtain ⟨⟨n00, n01, n02, n10, n11, n12, n20, n21, n22⟩, ⟨hc0, hc1, hc2⟩, ⟨hr0, hr1, hr2⟩⟩ :=
    feas_expand s x hfeas
  have e01 : x (flat 0 1) = 0 := by linarith
  have e02 : x (flat 0 2) = 0 := by linarith
  have e11 : x (flat 1 1) = 0 := by linarith
  have e20 : x (flat 2 0) = 0 := by linarith
  have e21 : x (flat 2 1) = 3000 := by linarith
  have e22 : x (flat 2 2) = (s 2 : ℚ) - 3000 := by linarith
  have e12 : x (flat 1 2) = 5000 - (s 2 : ℚ) := by linarith
  have e10 : x (flat 1 0) = (s 1 : ℚ) + (s 2 : ℚ) - 5000 := by linarith
  have e00 : x (flat 0 0) = (s 0 : ℚ) := by linarith
  intro k
  fin_cases k
  · exact ⟨(s 0 : ℤ), by show x (flat 0 0) = _; rw [e00]; push_cast; ring⟩
  · exact ⟨0, by show x (flat 0 1) = _; rw [e01]; norm_num⟩
  · exact ⟨0, by show x (flat 0 2) = _; rw [e02]; norm_num⟩
  · exact ⟨(s 1 : ℤ) + (s 2 : ℤ) - 5000, by show x (flat 1 0) = _; rw [e10]; push_cast; ring⟩
  · exact ⟨0, by show x (flat 1 1) = _; rw [e11]; norm_num⟩
  · exact ⟨5000 - (s 2 : ℤ), by show x (flat 1 2) = _; rw [e12]; push_cast; ring⟩
  · exact ⟨0, by show x (flat 2 0) = _; rw [e20]; norm_num⟩
  · exact ⟨3000, by show x (flat 2 1) = _; rw [e21]; norm_num⟩
  · exact ⟨(s 2 : ℤ) - 3000, by show x (flat 2 2) = _; rw [e22]; push_cast; ring⟩

/-- D2 fills S1 and S2 on its own and spills into S0: dual
u = (110, 135, 180), v = (0, -80, -55). -/
lemma region9 (s : Fin 3 → ℕ) (x : Fin 9 → ℚ)
    (hc5 : 5000 ≤ s 2) (htot : s 0 + s 1 + s 2 ≤ 7000)
    (hfeas : progFeasible (buildProgram s) x)
    (hopt : ∀ y, progFeasible (buildProgram s) y → cost x ≤ cost y) :
    ∀ k, ∃ n : ℤ, x k = (n : ℚ) := by
  have cc5 : (5000 : ℚ) ≤ (s 2 : ℚ) := by exact_mod_cast hc5
  have ct : (s 0 : ℚ) + (s 1 : ℚ) + (s 2 : ℚ) ≤ 7000 := by exact_mod_cast htot
  have ca0 : (0 : ℚ) ≤ (s 0 : ℚ) := Nat.cast_nonneg _
  have cb0 : (0 : ℚ) ≤ (s 1 : ℚ) := Nat.cast_nonneg _
  have hy : progFeasible (buildProgram s)
      (mat9 (s 0 : ℚ) 0 0 (s 1 : ℚ) 0 0 ((s 2 : ℚ) - 5000) 3000 2000) :=
    mat9_feasible s _ _ _ _ _ _ _ _ _ ca0 le_rfl le_rfl cb0 le_rfl le_rfl (by linarith)
      (by norm_num) (by norm_num) (by linarith) (by linarith) (by linarith) (by ring)
      (by ring) (by ring)
  have hb2 := hopt _ hy
  rw [cost_expand, cost_mat9] at hb2
  obtain ⟨⟨n00, n01, n02, n10, n11, n12, n20, n21, n22⟩, ⟨hc0, hc1, hc2⟩, ⟨hr0, hr1, hr2⟩⟩ :=
    feas_expand s x hfeas
  have e01 : x (flat 0 1) = 0 := by linarith
  have e02 : x (flat 0 2) = 0 := by linarith
  have e11 : x (flat 1 1) = 0 := by linarith
  have e12 : x (flat 1 2) = 0 := by linarith
  have e21 : x (flat 2 1) = 3000 := by linarith
  have e22 : x (flat 2 2) = 2000 := by linarith
  have e20 : x (flat 2 0) = (s 2 : ℚ) - 5000 := by linarith
  have e00 : x (flat 0 0) = (s 0 : ℚ) := by linarith
  have e10 : x (flat 1 0) = (s 1 : ℚ) := by linarith
  intro k
  fin_cases k
  · exact ⟨(s 0 : ℤ), by show x (flat 0 0) = _; rw [e00]; push_cast; ring⟩
  · exact ⟨0, by show x (flat 0 1) = _; rw [e01]; norm_num⟩
  · exact ⟨0, by show x (flat 0 2) = _; rw [e02]; norm_num⟩
  · exact ⟨(s 1 : ℤ), by show x (flat 1 0) = _; rw [e10]; push_cast; ring⟩
  · exact ⟨0, by show x (flat 1 1) = _; rw [e11]; norm_num⟩
  · exact ⟨0, by show x (flat 1 2) = _; rw [e12]; norm_num⟩
  · exact ⟨(s 2 : ℤ) - 5000, by show x (flat 2 0) = _; rw [e20]; push_cast; ring⟩
  · exact ⟨3000, by show x (flat 2 1) = _; rw [e21]; norm_num⟩
  · exact ⟨2000, by show x (flat 2 2) = _; rw [e22]; norm_num⟩

/-- D0 and D1 both overflow; both tails meet in S1 next to D2: dual
u = (165, 150, 100), v = (-55, 0, -40). -/
lemma region10 (s : Fin 3 → ℕ) (x : Fin 9 → ℚ)
    (ha : 2000 ≤ s 0) (hb : 2000 ≤ s 1) (htot : s 0 + s 1 + s 2 ≤ 7000)
    (hfeas : progFeasible (buildProgram s) x)
    (hopt : ∀ y, progFeasible (buildProgram s) y → cost x ≤ cost y) :
    ∀ k, ∃ n : ℤ, x k = (n : ℚ) := by
  have ca : (2000 : ℚ) ≤ (s 0 : ℚ) := by exact_mod_cast ha
  have cb : (2000 : ℚ) ≤ (s 1 : ℚ) := by exact_mod_cast hb
  have ct : (s 0 : ℚ) + (s 1 : ℚ) + (s 2 : ℚ) ≤ 7000 := by exact_mod_cast htot
  have cc0 : (0 : ℚ) ≤ (s 2 : ℚ) := Nat.cast_nonneg _
  have hy : progFeasible (buildProgram s)
      (mat9 2000 ((s 0 : ℚ) - 2000) 0 0 ((s 1 : ℚ) - 2000) 2000 0 (s 2 : ℚ) 0) :=
    mat9_feasible s _ _ _ _ _ _ _ _ _ (by norm_num) (by linarith) le_rfl le_rfl (by linarith)
      (by norm_num) le_rfl cc0 le_rfl (by norm_num) (by linarith) (by norm_num) (by ring)
      (by ring) (by ring)
  have hb2 := hopt _ hy
  rw [cost_expand, cost_mat9] at hb2
  obtain ⟨⟨n00, n01, n02, n10, n11, n12, n20, n21, n22⟩, ⟨hc0, hc1, hc2⟩, ⟨hr0, hr1, hr2⟩⟩ :=
    feas_expand s x hfeas
  have e02 : x (flat 0 2) = 0 := by linarith
  have e10 : x (flat 1 0) = 0 := by linarith
  have e20 : x (flat 2 0) = 0 := by linarith
  have e22 : x (flat 2 2) = 0 := by linarith
  have e00 : x (flat 0 0) = 2000 := by linarith
  have e12 : x (flat 1 2) = 2000 := by linarith
  have e01 : x (flat 0 1) = (s 0 : ℚ) - 2000 := by linarith
  have e11 : x (flat 1 1) = (s 1 : ℚ) - 2000 := by linarith
  have e21 : x (flat 2 1) = (s 2 : ℚ) := by linarith
  intro k
  fin_cases k
  · exact ⟨2000, by show x (flat 0 0) = _; rw [e00]; norm_num⟩
  · exact ⟨(s 0 : ℤ) - 2000, by show x (flat 0 1) = _; rw [e01]; push_cast; ring⟩
  · exact ⟨0, by show x (flat 0 2) = _; rw [e02]; norm_num⟩
  · exact ⟨0, by show x (flat 1 0) = _; rw [e10]; norm_num⟩
  · exact ⟨(s 1 : ℤ) - 2000, by show x (flat 1 1) = _; rw [e11]; push_cast; ring⟩
  · exact ⟨2000, by show x (flat 1 2) = _; rw [e12]; norm_num⟩
  · exact ⟨0, by show x (flat 2 0) = _; rw [e20]; norm_num⟩
  · exact ⟨(s 2 : ℤ), by show x (flat 2 1) = _; rw [e21]; push_cast; ring⟩
  · exact ⟨0, by show x (flat 2 2) = _; rw [e22]; norm_num⟩

/-- Every optimal solution of the built program is integral, for every
admissible supply vector: the ten regions cover the whole supply space. -/
lemma optimal_integral (s : Fin 3 → ℕ) (x : Fin 9 → ℚ)
    (htot : s 0 + s 1 + s 2 ≤ 7000)
    (hfeas : progFeasible (buildProgram s) x)
    (hopt : ∀ y, progFeasible (buildProgram s) y → cost x ≤ cost y) :
    ∀ k, ∃ n : ℤ, x k = (n : ℚ) := by
  by_cases hA : s 0 ≤ 2000
  · by_cases hB : s 1 ≤ 2000
    · by_cases hC : s 2 ≤ 3000
      · exact region0 s x hA hB hC hfeas hopt
      · by_cases hBC : s 1 + s 2 ≤ 5000
        · exact region7 s x (by omega) hBC hA hfeas hopt
        · by_cases hC5 : s 2 ≤ 5000
          · exact region8 s x (by omega) (by omega) hC5 hA htot hfeas hopt
          · exact region9 s x (by omega) htot hfeas hopt
    · by_cases hC : s 2 ≤ 3000
      · by_cases hAB : s 0 + s 1 ≤ 4000
        · exact region5 s x (by omega) hAB hC hfeas hopt
        · exact region6 s x (by omega) (by omega) hA hC htot hfeas hopt
      · exact region8 s x (by omega) (by omega) (by omega) hA htot hfeas hopt
  · by_cases hB : s 1 ≤ 2000
    · by_cases hAC : s 0 + s 2 ≤ 5000
      · exact region2 s x (by omega) hB hAC hfeas hopt
      · by_cases hA5 : s 0 ≤ 5000
        · exact region3 s x (by omega) hA5 hB (by omega) htot hfeas hopt
        · exact region4 s x (by omega) htot hfeas hopt
    · exact region10 s x (by omega) (by omega) htot hfeas hopt

/-- Weak duality with the prices of `region10`: every feasible point costs
at least `165 s0 + 150 s1 + 100 s2 - 190000`. -/
lemma bound10 (s : Fin 3 → ℕ) (y : Fin 9 → ℚ) (hfeas : progFeasible (buildProgram s) y) :
    165 * (s 0 : ℚ) + 150 * (s 1 : ℚ) + 100 * (s 2 : ℚ) - 190000 ≤ cost y := by
  obtain ⟨⟨n00, n01, n02, n10, n11, n12, n20, n21, n22⟩, ⟨hc0, hc1, hc2⟩, ⟨hr0, hr1, hr2⟩⟩ :=
    feas_expand s y hfeas
  rw [cost_expand]
  linarith

lemma cost_intX : cost intX = 812500 := by
  rw [cost_expand]
  rw [show intX (flat 0 0) = 2000 from rfl, show intX (flat 0 1) = 500 from rfl,
    show intX (flat 0 2) = 0 from rfl, show intX (flat 1 0) = 0 from rfl,
    show intX (flat 1 1) = 1100 from rfl, show intX (flat 1 2) = 2000 from rfl,
    show intX (flat 2 0) = 0 from rfl, show intX (flat 2 1) = 1250 from rfl,
    show intX (flat 2 2) = 0 from rfl]
  norm_num

/-- `intX` is an optimum of the worked example. -/
lemma intX_optimal : ∀ y, progFeasible (buildProgram exSupply) y → cost intX ≤ cost y := by
  intro y hy
  have hb := bound10 exSupply y hy
  rw [show (exSupply 0 : ℚ) = 2500 from by norm_num [show exSupply 0 = 2500 from rfl],
    show (exSupply 1 : ℚ) = 3100 from by norm_num [show exSupply 1 = 3100 from rfl],
    show (exSupply 2 : ℚ) = 1250 from by norm_num [show exSupply 2 = 1250 from rfl]] at hb
  rw [cost_intX]
  linarith

lemma okRes_conforms : ConformsTo (buildProgram exSupply) okRes :=
  ⟨fun _ => rfl, fun _ => ⟨intX_feasible, rfl⟩⟩

/-- A probe message used to instantiate universally quantified failure texts. -/
def probeMsg : String := "probe"

/-! ### The claims -/

/-- C3: the InputOversupply condition is signalled iff total supply strictly
exceeds total capacity; when it is signalled the outcome does not depend on
the solver (the solver is never consulted); total supply exactly equal to
total capacity is accepted, i.e. never produces the oversupply outcome. -/
theorem C3_oversupply_fail_fast (solver : Program → LinprogResult) (s : Fin 3 → ℕ) :
    (runRequest solver s = Outcome.oversupplyError ↔ (∑ i, s i) > total_demand) ∧
    ((∑ i, s i) > total_demand → ∀ g : Program → LinprogResult,
      runRequest solver s = runRequest g s) ∧
    ((∑ i, s i) = total_demand → runRequest solver s ≠ Outcome.oversupplyError) := by
  refine ⟨⟨fun h => ?_, fun hc => ?_⟩, fun hc g => ?_, fun he => ?_⟩
  · by_contra hn
    unfold runRequest at h
    rw [if_neg hn] at h
    exact interpret_ne_oversupply _ h
  · unfold runRequest
    rw [if_pos hc]
  · unfold runRequest
    rw [if_pos hc, if_pos hc]
  · unfold runRequest
    rw [if_neg (by omega)]
    exact interpret_ne_oversupply _

/-- C3 witness: the spec's oversupply scenario (2500, 3600, 1250), total 7350
against capacity 7000, is rejected before the solver runs. -/
theorem C3_witness : runRequest constSolver overSupply = Outcome.oversupplyError :=
  (C3_oversupply_fail_fast constSolver overSupply).1.mpr (by decide)

/-- C4: the Model Builder emits the flattened cost vector
`distance * multiplier` in depot-major order, the store inequality rows
summing each store's column against its capacity, the depot equality rows
summing each depot's row against its supply, bounds `(0, none)` everywhere,
and the success branch reshapes the solution with the same depot-major
indexing `flat`. -/
theorem C4_model_builder (s : Fin 3 → ℕ) :
    (∀ i j, (buildProgram s).c (flat i j) = ((distances i j * cost_per_mile : ℕ) : ℚ)) ∧
    (∀ x : Fin 9 → ℚ, ∀ j, (∑ k, (buildProgram s).A_ub j k * x k) = ∑ i, x (flat i j)) ∧
    (∀ j, (buildProgram s).b_ub j = (store_caps j : ℚ)) ∧
    (∀ x : Fin 9 → ℚ, ∀ i, (∑ k, (buildProgram s).A_eq i k * x k) = ∑ j, x (flat i j)) ∧
    (∀ i, (buildProgram s).b_eq i = (s i : ℚ)) ∧
    (∀ k, (buildProgram s).bounds k = (0, none)) ∧
    (∀ res : LinprogResult, res.success = true →
      interpret res =
        Outcome.success (fun i j => roundHalfEven (res.x (flat i j))) res.objValue) := by
  refine ⟨fun i j => c_flat i j, fun x j => sum_A_store j x, fun j => rfl,
    fun x i => sum_A_depot i x, fun i => rfl, fun k => rfl, fun res h => ?_⟩
  rw [interpret_of_success res h]
  rfl

/-- C4 witness: on the worked example the depot-1 equality bound is its
supply, 3100. -/
theorem C4_witness : (buildProgram exSupply).b_eq 1 = ((3100 : ℕ) : ℚ) :=
  (C4_model_builder exSupply).2.2.2.2.1 1

/-- C8: solving is deterministic — the outcome is a function of the supply
vector and of the (fixed, deterministic) solver's answer on the built
program; two invocations with identical inputs and identical solver answers
give identical outcomes. -/
theorem C8_deterministic (solver g : Program → LinprogResult) (s t : Fin 3 → ℕ)
    (hst : s = t) (hsol : solver (buildProgram s) = g (buildProgram t)) :
    runRequest solver s = runRequest g t := by
  subst hst
  unfold runRequest
  rw [hsol]

/-- C8 witness: the worked example, run twice. -/
theorem C8_witness : runRequest constSolver exSupply = runRequest constSolver exSupply :=
  C8_deterministic constSolver constSolver exSupply exSupply rfl rfl

/-- C10: once the oversupply pre-check has passed (total supply at most
7000), the built program is feasible — the greedy interval assignment is an
explicit feasible point — so a solver conforming to its contract reports
success and the failure branch is unreachable. -/
theorem C10_no_failure_after_precheck (s : Fin 3 → ℕ) (h : (∑ i, s i) ≤ total_demand) :
    progFeasible (buildProgram s) (greedyX s) ∧
    (∀ solver : Program → LinprogResult,
      ConformsTo (buildProgram s) (solver (buildProgram s)) →
      ∀ m, runRequest solver s ≠ Outcome.failure m) := by
  refine ⟨feasible_greedy s h, fun solver hc m => ?_⟩
  have hsucc : (solver (buildProgram s)).success = true :=
    hc.1 ⟨greedyX s, feasible_greedy s h⟩
  unfold runRequest
  rw [if_neg (by omega), interpret_of_success _ hsucc]
  intro hcon
  cases hcon

/-- C10 witness: the worked example cannot reach the failure branch. -/
theorem C10_witness : runRequest constSolver exSupply ≠ Outcome.failure probeMsg :=
  (C10_no_failure_after_precheck exSupply (by decide)).2 constSolver okRes_conforms probeMsg

/-- C1: for every supply vector with total supply at most the total
capacity — the program is then feasible — a solver run satisfying the full
modelled contract (success on feasible programs, a feasible cost-minimizing
point, the matching objective value) produces a success outcome whose
reported rounded plan sums every depot row exactly to its supply and keeps
every store column within its capacity.  Every optimal solution of this
program is integral (`optimal_integral`), so the rounding changes no
entry. -/
theorem C1_plan_invariant (s : Fin 3 → ℕ) (res : LinprogResult)
    (htot : (∑ i, s i) ≤ total_demand)
    (hconf : ConformsToOptimal (buildProgram s) res) :
    ∃ plan tc, interpret res = Outcome.success plan tc ∧
      (∀ i, (∑ j, plan i j) = (s i : ℤ)) ∧
      (∀ j, (∑ i, plan i j) ≤ (store_caps j : ℤ)) := by
  have hsucc : res.success = true := hconf.1.1 ⟨greedyX s, feasible_greedy s htot⟩
  obtain ⟨hfeas, -⟩ := hconf.1.2 hsucc
  have hopt : ∀ y, progFeasible (buildProgram s) y → cost res.x ≤ cost y := hconf.2 hsucc
  have h3 : s 0 + s 1 + s 2 ≤ 7000 := by
    have h := htot
    rw [Fin.sum_univ_three, total_demand_eq] at h
    exact h
  have hint : ∀ k, ∃ n : ℤ, res.x k = (n : ℚ) := optimal_integral s res.x h3 hfeas hopt
  rw [progFeasible_build_iff] at hfeas
  obtain ⟨hpos, hub, heq⟩ := hfeas
  have hcast : ∀ i j, ((roundPlan res.x i j : ℤ) : ℚ) = res.x (flat i j) :=
    fun i j => roundHalfEven_cast_of_int _ (hint _)
  refine ⟨roundPlan res.x, res.objValue, interpret_of_success res hsucc, fun i => ?_, fun j => ?_⟩
  · have h1 : ((∑ j, roundPlan res.x i j : ℤ) : ℚ) = (s i : ℚ) := by
      rw [Fin.sum_univ_three]
      push_cast
      rw [hcast, hcast, hcast]
      exact_mod_cast heq i
    exact_mod_cast h1
  · have h1 : ((∑ i, roundPlan res.x i j : ℤ) : ℚ) ≤ (store_caps j : ℚ) := by
      rw [Fin.sum_univ_three]
      push_cast
      rw [hcast, hcast, hcast]
      exact_mod_cast hub j
    exact_mod_cast h1

/-- C1 witness: on the worked example (2500, 3100, 1250) the optimal answer
`intX` satisfies the full contract and the reported plan meets both
invariants. -/
theorem C1_witness : ∃ plan tc, interpret okRes = Outcome.success plan tc ∧
    (∀ i, (∑ j, plan i j) = (exSupply i : ℤ)) ∧
    (∀ j, (∑ i, plan i j) ≤ (store_caps j : ℤ)) :=
  C1_plan_invariant exSupply okRes (by decide) ⟨okRes_conforms, fun _ => intX_optimal⟩

/-- C2 (counterexample): as stated the claim is false.  `badRes` is a
successful solver run whose rounded plan exceeds store 1's capacity
(2001 > 2000), yet the program reports plain success with that plan — there
is no post-solve validation and no rounded-infeasible outcome. -/
theorem C2_counterexample :
    badRes.success = true ∧
    ((store_caps 0 : ℤ) < ∑ i, roundPlan badRes.x i 0) ∧
    interpret badRes = Outcome.success (roundPlan badRes.x) badRes.objValue := by
  refine ⟨rfl, ?_, interpret_of_success badRes rfl⟩
  have h : (∑ i, roundPlan badRes.x i 0) = 2001 := badPlan_col0
  rw [h]
  show ((2000 : ℕ) : ℤ) < 2001
  norm_num

/-- C2 (amended): the program performs no post-solve validation — every
successful solver run is reported as success carrying the rounded plan and
the solver's objective value, never as any failure, even when a store's
rounded total exceeds its capacity. -/
theorem C2_no_rounding_validation (res : LinprogResult) (h : res.success = true) :
    interpret res = Outcome.success (roundPlan res.x) res.objValue ∧
    ∀ m, interpret res ≠ Outcome.failure m := by
  refine ⟨interpret_of_success res h, fun m hcon => ?_⟩
  rw [interpret_of_success res h] at hcon
  cases hcon

/-- C2 witness: the capacity-violating rounded plan of `badRes` is still
reported as success. -/
theorem C2_witness : interpret badRes = Outcome.success (roundPlan badRes.x) badRes.objValue :=
  (C2_no_rounding_validation badRes rfl).1

/-- C5: on success the reported total cost is the solver's objective value on
the continuous (pre-rounding) solution, i.e. the sum over all (depot, store)
pairs of shipment × distance × cost multiplier evaluated at `res.x`. -/
theorem C5_cost_from_continuous (res : LinprogResult)
    (hsucc : res.success = true)
    (hfun : res.objValue = ∑ k, c k * res.x k) :
    interpret res = Outcome.success (roundPlan res.x)
      (∑ i, ∑ j, res.x (flat i j) * ((distances i j * cost_per_mile : ℕ) : ℚ)) := by
  rw [interpret_of_success res hsucc, hfun]
  rw [sum_flat (fun k => c k * res.x k)]
  congr 1
  refine Finset.sum_congr rfl fun i _ => Finset.sum_congr rfl fun j _ => ?_
  rw [c_flat]
  ring

/-- C5 witness: the worked example's reported cost is the continuous
objective value. -/
theorem C5_witness : interpret okRes = Outcome.success (roundPlan okRes.x)
    (∑ i, ∑ j, okRes.x (flat i j) * ((distances i j * cost_per_mile : ℕ) : ℚ)) :=
  C5_cost_from_continuous okRes rfl rfl

/-- C6: on success the reported plan is obtained by rounding each entry of
the continuous solution independently to a nearest integer (half to even)
and reshaping by the same depot-major index `flat` that the cost vector of
the built program uses. -/
theorem C6_round_and_reshape (res : LinprogResult) (hsucc : res.success = true) :
    interpret res =
      Outcome.success (fun i j => roundHalfEven (res.x (flat i j))) res.objValue ∧
    (∀ q : ℚ, ∀ m : ℤ, |(roundHalfEven q : ℚ) - q| ≤ |(m : ℚ) - q|) ∧
    (∀ i j, c (flat i j) = ((distances i j * cost_per_mile : ℕ) : ℚ)) := by
  refine ⟨?_, roundHalfEven_nearest, c_flat⟩
  rw [interpret_of_success res hsucc]
  rfl

/-- C6 witness: the success branch of the worked example rounds and
reshapes. -/
theorem C6_witness : interpret okRes =
    Outcome.success (fun i j => roundHalfEven (okRes.x (flat i j))) okRes.objValue :=
  (C6_round_and_reshape okRes rfl).1

/-- C7 (counterexample): as stated the claim is false.  Two failed solver
runs of different kinds (status 2, infeasible, versus status 3, unbounded)
with the same diagnostic text produce the very same outcome: the program
keeps only the message and discards the kind. -/
theorem C7_counterexample :
    failA.success = false ∧ failB.success = false ∧ failA.status ≠ failB.status ∧
    interpret failA = interpret failB :=
  ⟨rfl, rfl, by decide, rfl⟩

/-- C7 (amended): every non-success solver outcome is reported — never
swallowed, never confused with success or with the oversupply error — as the
single generic failure kind carrying the solver's diagnostic message; the
three solver failure kinds are not otherwise distinguished. -/
theorem C7_generic_failure (res : LinprogResult) (h : res.success = false) :
    interpret res = Outcome.failure (failMsgOf res.message) ∧
    (∀ p q, interpret res ≠ Outcome.success p q) ∧
    interpret res ≠ Outcome.oversupplyError := by
  refine ⟨interpret_of_failure res h, fun p q hcon => ?_, interpret_ne_oversupply res⟩
  rw [interpret_of_failure res h] at hcon
  cases hcon

/-- C7 witness: a failed run is reported with the solver's message. -/
theorem C7_witness : interpret failA = Outcome.failure (failMsgOf failA.message) :=
  (C7_generic_failure failA rfl).1

/-- C9: a zero depot supply is accepted (it can never trigger the oversupply
error when the total fits) and, when the solve succeeds with a feasible
continuous solution, the reported plan ships nothing from that depot: its
whole row is zero. -/
theorem C9_zero_supply_zero_row (solver : Program → LinprogResult) (s : Fin 3 → ℕ)
    (res : LinprogResult) (i : Fin 3)
    (hzero : s i = 0) (htot : (∑ i, s i) ≤ total_demand)
    (hsucc : res.success = true) (hfeas : progFeasible (buildProgram s) res.x) :
    runRequest solver s ≠ Outcome.oversupplyError ∧
    interpret res = Outcome.success (roundPlan res.x) res.objValue ∧
    ∀ j, roundPlan res.x i j = 0 := by
  refine ⟨?_, interpret_of_success res hsucc, ?_⟩
  · unfold runRequest
    rw [if_neg (by omega)]
    exact interpret_ne_oversupply _
  · rw [progFeasible_build_iff] at hfeas
    obtain ⟨hpos, -, heqr⟩ := hfeas
    have hrow := heqr i
    rw [hzero] at hrow
    have hr0 : res.x (flat i 0) + res.x (flat i 1) + res.x (flat i 2) = 0 := by
      rw [hrow]
      norm_num
    have e0 : res.x (flat i 0) = 0 := by
      have a := hpos (flat i 0)
      have b := hpos (flat i 1)
      have d := hpos (flat i 2)
      linarith
    have e1 : res.x (flat i 1) = 0 := by
      have a := hpos (flat i 0)
      have b := hpos (flat i 1)
      have d := hpos (flat i 2)
      linarith
    have e2 : res.x (flat i 2) = 0 := by
      have a := hpos (flat i 0)
      have b := hpos (flat i 1)
      have d := hpos (flat i 2)
      linarith
    intro j
    fin_cases j
    · show roundHalfEven (res.x (flat i 0)) = 0
      rw [e0]
      exact round_zero
    · show roundHalfEven (res.x (flat i 1)) = 0
      rw [e1]
      exact round_zero
    · show roundHalfEven (res.x (flat i 2)) = 0
      rw [e2]
      exact round_zero

/-- C9 witness: with supplies (0, 3100, 1250) and the feasible answer `zX`,
depot 1 ships nothing to store 2. -/
theorem C9_witness : roundPlan zeroRes.x 0 1 = 0 :=
  (C9_zero_supply_zero_row constSolver zeroSupply zeroRes 0 rfl (by decide) rfl zX_feasible).2.2 1

end DeliverySchedule
